import Mathlib

/-!
Verification development for the query-execution core of the cayley graph
database fork (digicontract/cayley).  The definitions below are a shallow
embedding of the Go source: the transform (value-mapper) iterator family
(`graph/iterator`, file embedded from src/unnamed/part_000), the gizmopp
type filter (src/unnamed/part_001), the gizmopp argument converters
(src/query/gizmopp/environ.go), and the gizmo path-object builder
(src/query/gizmo/fieldNameMapper.go).  Stateful Go code is embedded by
explicit state passing; Go `error` values become `Option Err`; nilable Go
interface values (quad.Value, graph.Ref) become `Option` types.
-/

namespace Cayley

/-- Opaque store handle (Go graph.Ref).  Handles are comparable and opaque;
we use naturals as the carrier. -/
abbrev Ref := Nat

/-- Domain values (external quad.Value).  Constructors follow the cases
distinguished by typeCheck in src/unnamed/part_002; `other` stands for any
further implementation of the quad.Value interface (typeCheck's default
branch). -/
inductive QuadValue where
  | iri (s : String)
  | bnode (s : String)
  | str (s : String)
  | int (n : Int)
  | float (f : Int)
  | bool (b : Bool)
  | time (t : Int)
  | lang (s : String) (l : String)
  | typed (s : String) (ty : String)
  | other
deriving DecidableEq, Repr

/-- Errors produced by the embedded code (Go error values we need to
distinguish). -/
inductive Err where
  | userError (msg : String)
  | unknownType (vt : String)
  | notQuadValue
  | unsupportedType
  | expectedString
deriving DecidableEq, Repr

/-- The store adapter (Go graph.Namer): NameOf resolves a handle to a domain
value, ValueOf interns a domain value back to a handle.  Both sides are
nilable in Go, hence the Options. -/
structure Namer where
  nameOf : Ref → Option QuadValue
  valueOf : Option QuadValue → Option Ref

/-- The user mapper callback (Go ValueMapperFunc = func(quad.Value)
(quad.Value, error)). -/
abbrev Mapper := Option QuadValue → Option QuadValue × Option Err

/-- Model of a child Scanner cursor (Go graph.Scanner obtained from the sub
shape): it delivers `results` in order, then reports `err0` as its error
after exhaustion (none = clean exhaustion); `cur` is its current result,
`tags` the binding set it writes in TagResults, and `alt` the number of
remaining alternate-binding paths for NextPath. -/
structure SubScanner where
  results : List Ref
  cur : Option Ref
  err0 : Option Err
  tags : List (String × Ref)
  alt : Nat
deriving DecidableEq, Repr

/-- State of valueMapperNext (src/unnamed/part_000, lines 105-111). -/
structure valueMapperNext where
  sub : SubScanner
  result : Option Ref
  err : Option Err
deriving DecidableEq, Repr

/-- doMap (src/unnamed/part_000, lines 121-128): resolve the handle, run the
mapper, record a non-nil mapper error into the cursor error, return the
mapped value.  The first component is the mapped value handed to ValueOf,
the second the updated cursor error. -/
def doMap (qs : Namer) (mapper : Mapper) (err : Option Err) (val : Ref) :
    Option QuadValue × Option Err :=
  let qval := qs.nameOf val
  let r := mapper qval
  (r.1, match r.2 with
        | some e => some e
        | none => err)

/-- The loop of valueMapperNext.Next (src/unnamed/part_000, lines 134-145),
written as structural recursion over the child scanner's pending results.
`err0`, `tags`, `alt` are the unchanging parts of the child state; the list
argument is the child's remaining results, followed by the child's current
result, the node's current result and the node's current error. -/
def vmNextList (qs : Namer) (mapper : Mapper) (err0 : Option Err)
    (tags : List (String × Ref)) (alt : Nat) :
    List Ref → Option Ref → Option Ref → Option Err → Bool × valueMapperNext
  | [], cur, res, _err =>
      -- child's Next returned false: it.err = it.sub.Err(); return false
      (false, ⟨⟨[], cur, err0, tags, alt⟩, res, err0⟩)
  | v :: rest, _cur, res, err =>
      let m := doMap qs mapper err v
      match qs.valueOf m.1 with
      | some nref => (true, ⟨⟨rest, some v, err0, tags, alt⟩, some nref, m.2⟩)
      | none => vmNextList qs mapper err0 tags alt rest (some v) res m.2

/-- valueMapperNext.Next (src/unnamed/part_000, lines 134-145). -/
def vmNext (qs : Namer) (mapper : Mapper) (it : valueMapperNext) :
    Bool × valueMapperNext :=
  vmNextList qs mapper it.sub.err0 it.sub.tags it.sub.alt
    it.sub.results it.sub.cur it.result it.err

/-- valueMapperNext.Err (src/unnamed/part_000, lines 147-149). -/
def vmNextErr (it : valueMapperNext) : Option Err := it.err

/-- valueMapperNext.Result (src/unnamed/part_000, lines 151-153). -/
def vmNextResult (it : valueMapperNext) : Option Ref := it.result

/-- Go map assignment dst[k] = v on an association list. -/
def mapInsert (d : List (String × Ref)) (k : String) (v : Ref) :
    List (String × Ref) :=
  if d.any (fun kv => kv.1 = k) then
    d.map (fun kv => if kv.1 = k then (k, v) else kv)
  else d ++ [(k, v)]

/-- The child scanner's TagResults: writes its binding set into dst. -/
def SubScanner.tagResults (s : SubScanner) (dst : List (String × Ref)) :
    List (String × Ref) :=
  s.tags.foldl (fun d kv => mapInsert d kv.1 kv.2) dst

/-- The child scanner's NextPath: consumes one alternate-binding path if any
remain. -/
def SubScanner.nextPath (s : SubScanner) : Bool × SubScanner :=
  if s.alt = 0 then (false, s) else (true, { s with alt := s.alt - 1 })

/-- valueMapperNext.TagResults (src/unnamed/part_000, lines 161-163):
delegates to the child. -/
def vmNextTagResults (it : valueMapperNext) (dst : List (String × Ref)) :
    List (String × Ref) :=
  it.sub.tagResults dst

/-- valueMapperNext.NextPath (src/unnamed/part_000, lines 155-157):
delegates to the child. -/
def vmNextNextPath (it : valueMapperNext) : Bool × valueMapperNext :=
  let r := it.sub.nextPath
  (r.1, { it with sub := r.2 })

/-- Model of a child Index cursor (Go graph.Index obtained from the sub
shape): `elems` is the subtree's result set probed by Contains, `err0` the
error the child reports after a negative test (none = plain miss), with the
same tags/alternate-path data as the scanner side. -/
structure SubIndex where
  elems : List Ref
  err0 : Option Err
  tags : List (String × Ref)
  alt : Nat
deriving DecidableEq, Repr

/-- The child index's Contains. -/
def SubIndex.containsRef (s : SubIndex) (x : Ref) : Bool := s.elems.contains x

/-- The child index's TagResults. -/
def SubIndex.tagResults (s : SubIndex) (dst : List (String × Ref)) :
    List (String × Ref) :=
  s.tags.foldl (fun d kv => mapInsert d kv.1 kv.2) dst

/-- The child index's NextPath. -/
def SubIndex.nextPath (s : SubIndex) : Bool × SubIndex :=
  if s.alt = 0 then (false, s) else (true, { s with alt := s.alt - 1 })

/-- State of valueMapperContains (src/unnamed/part_000, lines 169-175). -/
structure valueMapperContains where
  sub : SubIndex
  result : Option Ref
  err : Option Err
deriving DecidableEq, Repr

/-- valueMapperContains.Contains (src/unnamed/part_000, lines 210-220): map
the candidate handle through doMap, intern the mapped value, and on success
delegate the membership test to the child with the mapped handle; a negative
child answer copies the child's error. -/
def vmContains (qs : Namer) (mapper : Mapper) (it : valueMapperContains)
    (val : Ref) : Bool × valueMapperContains :=
  let m := doMap qs mapper it.err val
  match qs.valueOf m.1 with
  | none => (false, { it with err := m.2 })
  | some nval =>
      if it.sub.containsRef nval then (true, { it with err := m.2 })
      else (false, { it with err := it.sub.err0 })

/-- valueMapperContains.Err (src/unnamed/part_000, lines 198-200). -/
def vmContainsErr (it : valueMapperContains) : Option Err := it.err

/-- valueMapperContains.TagResults (src/unnamed/part_000, lines 224-226):
delegates to the child. -/
def vmContainsTagResults (it : valueMapperContains)
    (dst : List (String × Ref)) : List (String × Ref) :=
  it.sub.tagResults dst

/-- valueMapperContains.NextPath (src/unnamed/part_000, lines 206-208):
delegates to the child. -/
def vmContainsNextPath (it : valueMapperContains) :
    Bool × valueMapperContains :=
  let r := it.sub.nextPath
  (r.1, { it with sub := r.2 })

/-- Size estimate (graph/refs.Size: Size int64, Exact bool), as used by
valueMapper.Stats through st.Size.Size and st.Size.Exact. -/
structure RefsSize where
  size : Int
  exact : Bool
deriving DecidableEq, Repr

/-- Cost estimate (graph.IteratorCosts): per-step cost hints plus the size
estimate, as used by valueMapper.Stats. -/
structure IteratorCosts where
  containsCost : Int
  nextCost : Int
  size : RefsSize
deriving DecidableEq, Repr

/-- valueMapper.Stats (src/unnamed/part_000, lines 98-103): take the child's
stats (and error), halve the size with a floor of one (Go int64 division
truncates toward zero, hence Int.tdiv), and mark the estimate inexact. -/
def vmStats (subStats : IteratorCosts × Option Err) :
    IteratorCosts × Option Err :=
  let st := subStats.1
  ({ st with size := ⟨Int.tdiv st.size.size 2 + 1, false⟩ }, subStats.2)

/-- The valueMapper shape (src/unnamed/part_000, lines 49-53): it wraps one
child shape; the child's type is abstract here. -/
structure valueMapperShape (σ : Type) where
  sub : σ
deriving DecidableEq, Repr

/-- valueMapper.Optimize (src/unnamed/part_000, lines 88-94): optimize the
child (`optChild` is the child shape's own Optimize), install the new child
when the child reports changed, and return the node itself together with the
changed flag the source returns. -/
def vmOptimize {σ : Type} (optChild : σ → σ × Bool)
    (it : valueMapperShape σ) : valueMapperShape σ × Bool :=
  let r := optChild it.sub
  (⟨if r.2 then r.1 else it.sub⟩, true)

/-- typeCheck (src/unnamed/part_002, lines 109-132): the type tag of a
domain value. -/
def typeCheck : QuadValue → String
  | .iri _ => "iri"
  | .bnode _ => "bnode"
  | .str _ => "str"
  | .int _ => "int"
  | .float _ => "float"
  | .bool _ => "bool"
  | .time _ => "time"
  | .lang _ _ => "lang"
  | .typed _ _ => "typed"
  | .other => "unknown"

/-- The filter function that filterTypes.BuildIterator installs
(src/unnamed/part_001, lines 95-105): accept a value iff its type tag occurs
in the configured list, otherwise return false together with an
unknown-type error. -/
def filterTypesFn (types : List String) (val : QuadValue) :
    Bool × Option Err :=
  let vt := typeCheck val
  if types.contains vt then (true, none)
  else (false, some (.unknownType vt))

/-- An entry of a predicate ("via") list produced by toVia
(src/query/gizmopp/environ.go, lines 453-481): each element ends up either a
path expression or a quad value. -/
inductive ViaItem where
  | pathItem (stack : List Nat)
  | valueItem (v : QuadValue)
deriving DecidableEq, Repr

/-- Modelled from the spec: graph/path.Path is not under src/.  Spec section
3 describes a Path Expression as "a rooted sequence of combinator
applications" built with structural sharing (section 9), so a path is the
list of combinator applications that produced it. -/
structure PathE where
  stack : List Nat
deriving DecidableEq, Repr

/-- A JavaScript argument as exported by goja and unwrapped by exportArgs
(src/unnamed/part_002, lines 235-261): possible runtime shapes reaching
toVia / toQuadValue / toStrings.  `qv` is a value already of type
quad.Value, `float` abstracts a float64 by its truncation and whether it was
integral, `pathArg` is a bare path pointer, `pathObj` an unwrapped
pathObject, and `otherArg` any unconvertible shape (maps, functions, ...). -/
inductive JSArg where
  | null
  | qv (v : QuadValue)
  | str (s : String)
  | bool (b : Bool)
  | int (n : Int)
  | float (trunc : Int) (integral : Bool)
  | time (t : Int)
  | pathArg (p : PathE)
  | pathObj (p : PathE)
  | list (xs : List JSArg)
  | strList (xs : List String)
  | otherArg

/-- Modelled from the external quad library: quad.StringToValue parses a
string of length above two that is wrapped in angle brackets as an IRI and
one with a blank-node prefix as a BNode; everything else is a plain string
literal.  Written over the character list so it evaluates inside proofs. -/
def stringToValue (s : String) : QuadValue :=
  let cs := s.toList
  if cs.length > 2 then
    if cs.head? = some '<' && cs.getLast? = some '>' then
      .iri (String.mk ((cs.drop 1).dropLast))
    else if cs.head? = some '_' && cs[1]? = some ':' then
      .bnode (String.mk (cs.drop 2))
    else .str s
  else .str s

/-- Modelled from the external quad library: quad.StringOf renders a value
back to a string. -/
def stringOf : QuadValue → String
  | .iri s => "<" ++ s ++ ">"
  | .bnode s => "_:" ++ s
  | .str s => s
  | .int n => toString n
  | .float f => toString f
  | .bool b => toString b
  | .time t => toString t
  | .lang s l => s ++ "@" ++ l
  | .typed s ty => s ++ "^^" ++ ty
  | .other => ""

/-- toQuadValue (src/query/gizmopp/environ.go, lines 389-414): convert one
exported argument to a quad value; a float64 with integral value becomes an
Int, all other shapes are errNotQuadValue. -/
def toQuadValue : JSArg → Except Err QuadValue
  | .qv v => .ok v
  | .str s => .ok (stringToValue s)
  | .bool b => .ok (.bool b)
  | .int n => .ok (.int n)
  | .float f integral => .ok (if integral then .int f else .float f)
  | .time t => .ok (.time t)
  | _ => .error .notQuadValue

/-- One step of the element loop of toVia (src/query/gizmopp/environ.go,
lines 469-479): a bare path is passed through, a pathObject contributes its
path, anything convertible contributes its quad value, and everything else
is the "unsupported type" panic. -/
def viaOne (a : JSArg) : Except Err ViaItem :=
  match a with
  | .pathArg p => .ok (.pathItem p.stack)
  | .pathObj p => .ok (.pathItem p.stack)
  | x => match toQuadValue x with
         | .ok v => .ok (.valueItem v)
         | .error _ => .error .unsupportedType

/-- The element loop of toVia (src/query/gizmopp/environ.go, lines
469-480) over the whole argument list. -/
def toViaLoop : List JSArg → Except Err (List ViaItem)
  | [] => .ok []
  | a :: rest =>
      match viaOne a with
      | .error e => .error e
      | .ok item =>
          match toViaLoop rest with
          | .error e => .error e
          | .ok items => .ok (item :: items)

/-- toVia (src/query/gizmopp/environ.go, lines 453-481) restricted to a
single argument, which is the only way toViaData calls it: nil means "all
predicates"; a slice argument is unwrapped and re-examined by the same rules
(re-entering toVia, split here over the unwrapped list's length exactly as
the source's length tests do); a string slice is converted element-wise (in
the source via a recursive toVia call that, on an all-strings list, always
reaches the element loop, to which it is inlined here); every other shape
runs the element loop. -/
def toViaSingle : JSArg → Except Err (List ViaItem)
  | .null => .ok []
  | .list [] => .ok []
  | .list [x] => toViaSingle x
  | .list xs => toViaLoop xs
  | .strList xs => toViaLoop (xs.map JSArg.str)
  | x => toViaLoop [x]
termination_by structural a => a

/-- toVia (src/query/gizmopp/environ.go, lines 453-481) on an arbitrary
argument list. -/
def toVia : List JSArg → Except Err (List ViaItem)
  | [] => .ok []
  | [a] => toViaSingle a
  | via => toViaLoop via

mutual

/-- One element of toStrings (src/query/gizmopp/environ.go, lines 436-448):
strings pass through, quad values are rendered with StringOf, slices are
flattened recursively, anything else is the "expected string" panic. -/
def strsOne : JSArg → Except Err (List String)
  | .str s => .ok [s]
  | .qv v => .ok [stringOf v]
  | .strList xs => .ok xs
  | .list xs => toStrings xs
  | _ => .error .expectedString

/-- toStrings (src/query/gizmopp/environ.go, lines 431-451): flatten the
argument list to tag names. -/
def toStrings : List JSArg → Except Err (List String)
  | [] => .ok []
  | a :: rest =>
      match strsOne a with
      | .error e => .error e
      | .ok hs =>
          match toStrings rest with
          | .error e => .error e
          | .ok ts => .ok (hs ++ ts)

end

/-- toViaData (src/query/gizmopp/environ.go, lines 483-492): the first
argument becomes the predicate list via toVia, the remaining arguments
become tag names via toStrings. -/
def toViaData (objs : List JSArg) :
    Except Err (List ViaItem × List String) :=
  match objs with
  | [] => .ok ([], [])
  | o :: rest =>
      match toVia [o] with
      | .error e => .error e
      | .ok preds =>
          match toStrings rest with
          | .error e => .error e
          | .ok tags => .ok (preds, tags)

/-- Shapes that toQuadValue converts successfully: "one predicate value". -/
def isValueShape : JSArg → Bool
  | .qv _ => true
  | .str _ => true
  | .bool _ => true
  | .int _ => true
  | .float _ _ => true
  | .time _ => true
  | _ => false

/-- Shapes that stand for a path expression. -/
def isPathShape : JSArg → Bool
  | .pathArg _ => true
  | .pathObj _ => true
  | _ => false

/-- The predicate-argument shapes enumerated by the claim, in the claim's
words: nothing/null, one predicate value, a list of predicate values, or
another Path Expression. -/
def specClaimViaShape : JSArg → Bool
  | .null => true
  | .pathArg _ => true
  | .pathObj _ => true
  | .list xs => xs.all isValueShape
  | .strList _ => true
  | a => isValueShape a

/-- The amended acceptance predicate: nothing/null, one predicate value, a
Path Expression, a string list, or a list that is either empty, a single
element re-examined by the same rules, or two or more elements each of
which is a predicate value or a Path Expression. -/
def specAmendedViaShape : JSArg → Bool
  | .null => true
  | .list [] => true
  | .list [x] => specAmendedViaShape x
  | .list xs => xs.all (fun a => isValueShape a || isPathShape a)
  | .strList _ => true
  | a => isValueShape a || isPathShape a
termination_by structural a => a

/-- Truth value of an Except computation succeeding. -/
def isOkE {α : Type} (e : Except Err α) : Bool :=
  match e with
  | .ok _ => true
  | .error _ => false

/-- A combinator application recorded in a path expression.  Payload types
follow the arguments the gizmo path object passes to the corresponding
path method (src/query/gizmo/fieldNameMapper.go). -/
inductive PComb where
  | isC (vals : List QuadValue)
  | inC (preds : List ViaItem)
  | outC (preds : List ViaItem)
  | bothC (preds : List ViaItem)
  | hasC (rev : Bool) (via : ViaItem) (vals : List QuadValue)
  | andC (other : List PComb) (follow : Bool)
  | orC (other : List PComb) (follow : Bool)
  | exceptC (other : List PComb) (follow : Bool)
  | uniqueC
  | limitC (n : Int)
  | skipC (n : Int)
  | orderC
  | labelContextC (labels : List ViaItem)
  | filtersC
  | mapsC

/-- Modelled from the spec: graph/path.Path is not under src/.  Spec
section 3 calls a Path Expression "a rooted sequence of combinator
applications", so the model is the list of combinator applications. -/
structure MPath where
  stack : List PComb

/-- Modelled from the spec: path.Path.Clone is not under src/.  Per spec
sections 4.3 and 9 a clone is a brand-new expression with the same
combinator sequence (structural sharing). -/
def MPath.clone (p : MPath) : MPath := ⟨p.stack⟩

/-- Modelled from the spec: every path combinator appends one combinator
application to the sequence (spec sections 3 and 9). -/
def MPath.applyComb (p : MPath) (c : PComb) : MPath := ⟨p.stack ++ [c]⟩

/-- The gizmo path object (src/query/gizmo/fieldNameMapper.go, lines
74-77); the session pointer plays no role in the builder algebra. -/
structure pathObjectG where
  path : MPath

/-- pathObject.clonePath (src/query/gizmo/fieldNameMapper.go, lines 90-96):
clone the held path, swap the clone into the receiver and hand the original
out for continuation.  The result is (returned path, receiver after the
call). -/
def pathObjectG.clonePathG (p : pathObjectG) : MPath × pathObjectG :=
  (p.path, ⟨p.path.clone⟩)

/-- pathObject.Is (src/query/gizmo/fieldNameMapper.go, lines 117-124).
Every combinator returns (receiver after the call, derived object). -/
def pathObjectG.isGz (p : pathObjectG) (vals : List QuadValue) :
    pathObjectG × pathObjectG :=
  let r := p.clonePathG
  (r.2, ⟨r.1.applyComb (.isC vals)⟩)

/-- pathObject.inout (src/query/gizmo/fieldNameMapper.go, lines 194-206),
after argument conversion. -/
def pathObjectG.inoutGz (p : pathObjectG) (inDir : Bool)
    (preds : List ViaItem) : pathObjectG × pathObjectG :=
  let r := p.clonePathG
  (r.2, ⟨if inDir then r.1.applyComb (.inC preds)
         else r.1.applyComb (.outC preds)⟩)

/-- pathObject.In (src/query/gizmo/fieldNameMapper.go, lines 153-155). -/
def pathObjectG.inGz (p : pathObjectG) (preds : List ViaItem) :
    pathObjectG × pathObjectG :=
  p.inoutGz true preds

/-- pathObject.Out (src/query/gizmo/fieldNameMapper.go, lines 190-192). -/
def pathObjectG.outGz (p : pathObjectG) (preds : List ViaItem) :
    pathObjectG × pathObjectG :=
  p.inoutGz false preds

/-- pathObject.Both (src/query/gizmo/fieldNameMapper.go, lines 215-222). -/
def pathObjectG.bothGz (p : pathObjectG) (preds : List ViaItem) :
    pathObjectG × pathObjectG :=
  let r := p.clonePathG
  (r.2, ⟨r.1.applyComb (.bothC preds)⟩)

/-- pathObject.has (src/query/gizmo/fieldNameMapper.go, lines 397-424),
after argument conversion. -/
def pathObjectG.hasGz (p : pathObjectG) (rev : Bool) (via : ViaItem)
    (vals : List QuadValue) : pathObjectG × pathObjectG :=
  let r := p.clonePathG
  (r.2, ⟨r.1.applyComb (.hasC rev via vals)⟩)

/-- pathObject.Intersect (src/query/gizmo/fieldNameMapper.go, lines
305-327), after argument checking. -/
def pathObjectG.intersectGz (p : pathObjectG) (via : MPath) (follow : Bool) :
    pathObjectG × pathObjectG :=
  let r := p.clonePathG
  (r.2, ⟨r.1.applyComb (.andC via.stack follow)⟩)

/-- pathObject.Union (src/query/gizmo/fieldNameMapper.go, lines 342-364). -/
def pathObjectG.unionGz (p : pathObjectG) (via : MPath) (follow : Bool) :
    pathObjectG × pathObjectG :=
  let r := p.clonePathG
  (r.2, ⟨r.1.applyComb (.orC via.stack follow)⟩)

/-- pathObject.Except (src/query/gizmo/fieldNameMapper.go, lines 440-462). -/
def pathObjectG.exceptGz (p : pathObjectG) (via : MPath) (follow : Bool) :
    pathObjectG × pathObjectG :=
  let r := p.clonePathG
  (r.2, ⟨r.1.applyComb (.exceptC via.stack follow)⟩)

/-- pathObject.Unique (src/query/gizmo/fieldNameMapper.go, lines 465-468). -/
def pathObjectG.uniqueGz (p : pathObjectG) : pathObjectG × pathObjectG :=
  let r := p.clonePathG
  (r.2, ⟨r.1.applyComb .uniqueC⟩)

/-- pathObject.Limit (src/query/gizmo/fieldNameMapper.go, lines 690-693). -/
def pathObjectG.limitGz (p : pathObjectG) (n : Int) :
    pathObjectG × pathObjectG :=
  let r := p.clonePathG
  (r.2, ⟨r.1.applyComb (.limitC n)⟩)

/-- pathObject.Skip (src/query/gizmo/fieldNameMapper.go, lines 705-708). -/
def pathObjectG.skipGz (p : pathObjectG) (n : Int) :
    pathObjectG × pathObjectG :=
  let r := p.clonePathG
  (r.2, ⟨r.1.applyComb (.skipC n)⟩)

/-- pathObject.Filter (src/query/gizmo/fieldNameMapper.go, lines 530-542),
with the callback abstracted. -/
def pathObjectG.filterGz (p : pathObjectG) : pathObjectG × pathObjectG :=
  let r := p.clonePathG
  (r.2, ⟨r.1.applyComb .filtersC⟩)

/-- A concrete store adapter over a finite value list: handle r resolves to
the value stored at position r, and interning finds the first position of
the value (so a value absent from the list does not intern). -/
def listNamer (store : List QuadValue) : Namer where
  nameOf r := store.get? r
  valueOf v :=
    match v with
    | none => none
    | some x => store.indexOf? x

/-- Store holding the integer values 1 and 2 (handles 0 and 1). -/
def qsA : Namer := listNamer [.int 1, .int 2]

/-- A mapper that fails on the value 1 and is the identity otherwise. -/
def mapA : Mapper := fun v =>
  match v with
  | some (.int 1) => (none, some (.userError "boom"))
  | some x => (some x, none)
  | none => (none, some (.userError "nil value"))

/-- A mapper that doubles integer values. -/
def mapDouble : Mapper := fun v =>
  match v with
  | some (.int n) => (some (.int (2 * n)), none)
  | _ => (none, some (.userError "not an int"))

/-- Store holding only the integer value 5 (handle 0); the doubled value 10
is not present, as in the spec's concrete mapper scenario. -/
def qsFive : Namer := listNamer [.int 5]

/-! Helper lemmas shared by the claim theorems. -/

theorem vmNextList_false_err (qs : Namer) (mapper : Mapper) (err0 : Option Err)
    (tags : List (String × Ref)) (alt : Nat) :
    ∀ (l : List Ref) (cur res : Option Ref) (err : Option Err),
      (vmNextList qs mapper err0 tags alt l cur res err).1 = false →
      (vmNextList qs mapper err0 tags alt l cur res err).2.err = err0 := by
  intro l
  induction l with
  | nil => intro cur res err _; rfl
  | cons v rest ih =>
      intro cur res err h
      cases hv : qs.valueOf (doMap qs mapper err v).1 with
      | some nref =>
          simp only [vmNextList, hv] at h
          exact Bool.noConfusion h
      | none =>
          simp only [vmNextList, hv] at h ⊢
          exact ih _ _ _ h

theorem toQuadValue_okness (a : JSArg) :
    isOkE (toQuadValue a) = isValueShape a := by
  cases a <;> rfl

theorem viaOne_okness (a : JSArg) :
    isOkE (viaOne a) = (isValueShape a || isPathShape a) := by
  cases a <;> rfl

theorem toViaLoop_okness (l : List JSArg) :
    isOkE (toViaLoop l) = l.all (fun a => isValueShape a || isPathShape a) := by
  induction l with
  | nil => rfl
  | cons a rest ih =>
      rw [List.all_cons, ← viaOne_okness, ← ih]
      show isOkE (match viaOne a with
        | .error e => Except.error e
        | .ok item =>
            match toViaLoop rest with
            | .error e => Except.error e
            | .ok items => Except.ok (item :: items)) =
        (isOkE (viaOne a) && isOkE (toViaLoop rest))
      cases viaOne a with
      | error e => rfl
      | ok item =>
          cases toViaLoop rest with
          | error e => rfl
          | ok items => rfl

theorem toViaLoop_strings (ts : List String) :
    toViaLoop (ts.map JSArg.str) =
      .ok (ts.map (fun s => ViaItem.valueItem (stringToValue s))) := by
  induction ts with
  | nil => rfl
  | cons s rest ih => simp [toViaLoop, viaOne, toQuadValue, ih]

theorem toStrings_mapStr (ts : List String) :
    toStrings (ts.map JSArg.str) = .ok ts := by
  induction ts with
  | nil => rfl
  | cons s rest ih => simp [toStrings, strsOne, ih]

theorem toViaSingle_oknessAux : ∀ (n : Nat) (a : JSArg), sizeOf a ≤ n →
    isOkE (toViaSingle a) = specAmendedViaShape a := by
  intro n
  induction n with
  | zero =>
      intro a h
      exact absurd h (by cases a <;> simp_arith)
  | succ n ih =>
      intro a h
      match a with
      | .null => rfl
      | .qv v => rfl
      | .str s => rfl
      | .bool b => rfl
      | .int m => rfl
      | .float f b => rfl
      | .time t => rfl
      | .pathArg p => rfl
      | .pathObj p => rfl
      | .otherArg => rfl
      | .strList xs =>
          show isOkE (toViaLoop (xs.map JSArg.str)) = true
          rw [toViaLoop_strings]
          rfl
      | .list [] => rfl
      | .list [x] =>
          have hx : sizeOf x ≤ n := by
            simp only [JSArg.list.sizeOf_spec, List.cons.sizeOf_spec,
              List.nil.sizeOf_spec] at h
            omega
          show isOkE (toViaSingle x) = specAmendedViaShape x
          exact ih x hx
      | .list (x :: y :: rest) =>
          show isOkE (toViaLoop (x :: y :: rest)) =
            (x :: y :: rest).all (fun a => isValueShape a || isPathShape a)
          exact toViaLoop_okness (x :: y :: rest)

theorem toViaSingle_okness (a : JSArg) :
    isOkE (toViaSingle a) = specAmendedViaShape a :=
  toViaSingle_oknessAux (sizeOf a) a (le_refl _)

/-! The claim theorems. -/

/-- C1 (counterexample).  The claim states that a mapper error during an
advance stops the cursor, that the error is retrievable after the negative
advance, and that it is never overwritten or lost.  With the store holding
the integers 1 and 2, a mapper that fails on 1 and is the identity
otherwise, and a child delivering handles 0 then 1: the first advance runs
into the mapper error, records it, and nevertheless returns true with a
further result; the following negative advance overwrites the recorded
error with the child's clean exhaustion, so Err reports nil. -/
theorem valueMapperNext_mapper_error_stop_cex :
    (vmNext qsA mapA ⟨⟨[0, 1], none, none, [], 0⟩, none, none⟩).1 = true ∧
    (vmNext qsA mapA ⟨⟨[0, 1], none, none, [], 0⟩, none, none⟩).2.err =
      some (.userError "boom") ∧
    (vmNext qsA mapA
      (vmNext qsA mapA ⟨⟨[0, 1], none, none, [], 0⟩, none, none⟩).2).1 = false ∧
    vmNextErr (vmNext qsA mapA
      (vmNext qsA mapA ⟨⟨[0, 1], none, none, [], 0⟩, none, none⟩).2).2 = none := by
  decide

/-- C1 (amended).  When the mapper returns an error for a candidate whose
mapped value does not intern, the error is recorded as the cursor's error at
that moment and the candidate is discarded, but the cursor keeps advancing
through the remaining child results; and at child exhaustion the negative
advance overwrites whatever error was recorded with the child's own error
(nil on clean exhaustion), so a recorded mapper failure can be lost.
Results already delivered are unaffected. -/
theorem valueMapperNext_error_recorded_scan_continues (qs : Namer)
    (mapper : Mapper) (v : Ref) (rest : List Ref) (cur res : Option Ref)
    (err0 err : Option Err) (tags : List (String × Ref)) (alt : Nat)
    (ov : Option QuadValue) (e : Err)
    (hmap : mapper (qs.nameOf v) = (ov, some e))
    (hintern : qs.valueOf ov = none) :
    vmNext qs mapper ⟨⟨v :: rest, cur, err0, tags, alt⟩, res, err⟩ =
      vmNext qs mapper ⟨⟨rest, some v, err0, tags, alt⟩, res, some e⟩ ∧
    vmNext qs mapper ⟨⟨[], cur, err0, tags, alt⟩, res, some e⟩ =
      (false, ⟨⟨[], cur, err0, tags, alt⟩, res, err0⟩) := by
  constructor
  · simp [vmNext, vmNextList, doMap, hmap, hintern]
  · rfl

/-- Witness for the C1 amended theorem at the counterexample's store and
mapper. -/
theorem valueMapperNext_error_recorded_scan_continues_witness :
    (vmNext qsA mapA ⟨⟨0 :: [1], none, none, [], 0⟩, none, none⟩ =
      vmNext qsA mapA
        ⟨⟨[1], some 0, none, [], 0⟩, none, some (.userError "boom")⟩) ∧
    vmNext qsA mapA ⟨⟨[], none, none, [], 0⟩, none, some (.userError "boom")⟩ =
      (false, ⟨⟨[], none, none, [], 0⟩, none, none⟩) :=
  valueMapperNext_error_recorded_scan_continues qsA mapA 0 [1] none none none
    none [] 0 none (.userError "boom") (by decide) (by decide)

/-- C2 (code-bug evaluation).  With the store holding the integers 1 and 2
(handles 0 and 1), a doubling mapper, and a child subtree whose result set
is the single handle 0: the Scanner role enumerates exactly handle 1
(interning the doubled value of the child result), and handle 0 is a child
result with intern of its mapped resolved value equal to handle 1, so the
claim requires Contains(handle 1) to be true; the code instead maps the
candidate itself, fails to intern the doubled value 4, and answers false. -/
theorem valueMapperContains_diverges_from_scanner :
    (vmNext qsA mapDouble ⟨⟨[0], none, none, [], 0⟩, none, none⟩).1 = true ∧
    (vmNext qsA mapDouble ⟨⟨[0], none, none, [], 0⟩, none, none⟩).2.result =
      some 1 ∧
    qsA.valueOf (mapDouble (qsA.nameOf 0)).1 = some 1 ∧
    (vmContains qsA mapDouble ⟨⟨[0], none, [], 0⟩, none, none⟩ 1).1 = false := by
  decide

/-- C3 (counterexample).  The claim states that re-optimizing reports
"changed" exactly when the child reports changed; with a child whose
Optimize reports no change, the node still reports changed. -/
theorem valueMapper_optimize_changed_cex :
    (vmOptimize (fun (_ : Unit) => ((), false)) ⟨()⟩).2 = true ∧
    ((fun (_ : Unit) => ((), false)) ()).2 = false ∧
    (vmOptimize (fun (_ : Unit) => ((), false)) ⟨()⟩).2 ≠
      ((fun (_ : Unit) => ((), false)) ()).2 := by
  decide

/-- C3 (amended).  Optimize recursively optimizes the child and installs the
replacement exactly when the child reports changed, but it always reports
changed itself, regardless of the child's flag; hence repeated optimization
of this node never reports "no change". -/
theorem valueMapper_optimize_always_changed {σ : Type}
    (optChild : σ → σ × Bool) (it : valueMapperShape σ) :
    (vmOptimize optChild it).2 = true ∧
    (vmOptimize optChild it).1.sub =
      (if (optChild it.sub).2 then (optChild it.sub).1 else it.sub) :=
  ⟨rfl, rfl⟩

/-- C4.  A child result whose mapped value carries no mapper error but does
not intern is silently discarded: the advance continues with the remaining
child results and the cursor's error is left exactly as it was (in
particular it stays nil). -/
theorem valueMapperNext_intern_miss_silent (qs : Namer) (mapper : Mapper)
    (v : Ref) (rest : List Ref) (cur res : Option Ref) (err0 err : Option Err)
    (tags : List (String × Ref)) (alt : Nat) (ov : Option QuadValue)
    (hmap : mapper (qs.nameOf v) = (ov, none))
    (hintern : qs.valueOf ov = none) :
    vmNext qs mapper ⟨⟨v :: rest, cur, err0, tags, alt⟩, res, err⟩ =
      vmNext qs mapper ⟨⟨rest, some v, err0, tags, alt⟩, res, err⟩ := by
  simp [vmNext, vmNextList, doMap, hmap, hintern]

/-- Witness for C4 at the spec's concrete scenario: the store holds only the
integer 5, the mapper doubles it to 10, 10 is not present, and the candidate
is dropped with the error still nil. -/
theorem valueMapperNext_intern_miss_silent_witness :
    vmNext qsFive mapDouble ⟨⟨[0], none, none, [], 0⟩, none, none⟩ =
      vmNext qsFive mapDouble ⟨⟨[], some 0, none, [], 0⟩, none, none⟩ :=
  valueMapperNext_intern_miss_silent qsFive mapDouble 0 [] none none none none
    [] 0 (some (.int 10)) (by decide) (by decide)

/-- C5.  Both cursor roles introduce no new tags and delegate alternate
paths verbatim: TagResults writes into the destination exactly what the
child's TagResults writes, and NextPath returns the child's answer, advances
only the child's state, and leaves the node's result and error untouched. -/
theorem valueMapper_delegates_tags_and_paths :
    (∀ (it : valueMapperNext) (dst : List (String × Ref)),
        vmNextTagResults it dst = it.sub.tagResults dst) ∧
    (∀ it : valueMapperNext,
        (vmNextNextPath it).1 = it.sub.nextPath.1 ∧
        (vmNextNextPath it).2.sub = it.sub.nextPath.2 ∧
        (vmNextNextPath it).2.result = it.result ∧
        (vmNextNextPath it).2.err = it.err) ∧
    (∀ (ic : valueMapperContains) (dst : List (String × Ref)),
        vmContainsTagResults ic dst = ic.sub.tagResults dst) ∧
    (∀ ic : valueMapperContains,
        (vmContainsNextPath ic).1 = ic.sub.nextPath.1 ∧
        (vmContainsNextPath ic).2.sub = ic.sub.nextPath.2 ∧
        (vmContainsNextPath ic).2.result = ic.result ∧
        (vmContainsNextPath ic).2.err = ic.err) :=
  ⟨fun _ _ => rfl, fun _ => ⟨rfl, rfl, rfl, rfl⟩,
   fun _ _ => rfl, fun _ => ⟨rfl, rfl, rfl, rfl⟩⟩

/-- C7.  After a negative advance the scanner's error is the child's error
at exhaustion (nil only when the child exhausted cleanly), and after a
negative membership test in which the mapped candidate interned, the index's
error is the child's error, so clean exhaustion and failure are
distinguishable. -/
theorem valueMapper_propagates_child_error (qs : Namer) (mapper : Mapper) :
    (∀ it : valueMapperNext, (vmNext qs mapper it).1 = false →
        vmNextErr (vmNext qs mapper it).2 = it.sub.err0) ∧
    (∀ (ic : valueMapperContains) (x nval : Ref),
        qs.valueOf (doMap qs mapper ic.err x).1 = some nval →
        ic.sub.containsRef nval = false →
        (vmContains qs mapper ic x).1 = false ∧
        vmContainsErr (vmContains qs mapper ic x).2 = ic.sub.err0) := by
  constructor
  · intro it h
    exact vmNextList_false_err qs mapper _ _ _ _ _ _ _ h
  · intro ic x nval hv hc
    constructor
    · simp [vmContains, hv, hc]
    · simp [vmContains, vmContainsErr, hv, hc]

/-- Witness for C7: a child scanner that failed after delivering everything
propagates its database error through the negative advance, and a child
index that answers no with an error propagates it through Contains. -/
theorem valueMapper_propagates_child_error_witness :
    vmNextErr (vmNext qsA mapA
      ⟨⟨[], none, some (.userError "db fail"), [], 0⟩, none, none⟩).2 =
      some (.userError "db fail") ∧
    ((vmContains qsA mapDouble
        ⟨⟨[5], some (.userError "db fail"), [], 0⟩, none, none⟩ 0).1 = false ∧
      vmContainsErr (vmContains qsA mapDouble
        ⟨⟨[5], some (.userError "db fail"), [], 0⟩, none, none⟩ 0).2 =
        some (.userError "db fail")) :=
  ⟨(valueMapper_propagates_child_error qsA mapA).1
      ⟨⟨[], none, some (.userError "db fail"), [], 0⟩, none, none⟩ (by decide),
   (valueMapper_propagates_child_error qsA mapDouble).2
      ⟨⟨[5], some (.userError "db fail"), [], 0⟩, none, none⟩ 0 1
      (by decide) (by decide)⟩

/-- C8.  The cost estimate is the child's with the size halved (truncated,
as Go int64 division) plus one, always marked inexact whatever the child's
exactness; the per-step costs and the child's stats error pass through, and
a nonnegative child size yields a size of at least one. -/
theorem valueMapper_stats_halved_inexact (st : IteratorCosts) (e : Option Err) :
    (vmStats (st, e)).1.size.size = Int.tdiv st.size.size 2 + 1 ∧
    (vmStats (st, e)).1.size.exact = false ∧
    (vmStats (st, e)).1.containsCost = st.containsCost ∧
    (vmStats (st, e)).1.nextCost = st.nextCost ∧
    (vmStats (st, e)).2 = e ∧
    (0 ≤ st.size.size → 1 ≤ (vmStats (st, e)).1.size.size) := by
  refine ⟨rfl, rfl, rfl, rfl, rfl, fun h => ?_⟩
  have h2 : 0 ≤ Int.tdiv st.size.size 2 := Int.tdiv_nonneg h (by norm_num)
  show 1 ≤ Int.tdiv st.size.size 2 + 1
  omega

/-- Witness for C8 at a child estimate of exact size 10 and costs 3 and 7. -/
theorem valueMapper_stats_halved_inexact_witness :
    (vmStats (⟨3, 7, ⟨10, true⟩⟩, (none : Option Err))).1.size.size =
      Int.tdiv 10 2 + 1 ∧
    (vmStats (⟨3, 7, ⟨10, true⟩⟩, (none : Option Err))).1.size.exact = false ∧
    1 ≤ (vmStats (⟨3, 7, ⟨10, true⟩⟩, (none : Option Err))).1.size.size :=
  ⟨(valueMapper_stats_halved_inexact ⟨3, 7, ⟨10, true⟩⟩ none).1,
   (valueMapper_stats_halved_inexact ⟨3, 7, ⟨10, true⟩⟩ none).2.1,
   (valueMapper_stats_halved_inexact ⟨3, 7, ⟨10, true⟩⟩ none).2.2.2.2.2
     (by norm_num)⟩

/-- C9 (counterexample).  The claim enumerates the accepted predicate
argument shapes as nothing/null, one predicate value, a list of predicate
values, or a Path Expression, and demands that any other shape be rejected
with an error; but a list containing a Path Expression, which is none of
these, is accepted silently. -/
theorem toVia_unlisted_shape_accepted_cex :
    specClaimViaShape (.list [.pathObj ⟨[7]⟩]) = false ∧
    toViaData [.list [.pathObj ⟨[7]⟩]] = .ok ([.pathItem [7]], []) :=
  ⟨rfl, rfl⟩

/-- C9 (amended).  With string tag arguments, toViaData succeeds exactly
when the predicate argument is an accepted shape: nothing/null, one
predicate value, a Path Expression, a string list, or a list that is empty,
or a single element re-examined by the same rules, or two or more elements
each a predicate value or Path Expression; every other shape is rejected
with an error.  A null predicate argument yields the empty predicate list
(all predicates). -/
theorem toViaData_accepted_shapes (a : JSArg) (ts : List String) :
    isOkE (toViaData (a :: ts.map JSArg.str)) = specAmendedViaShape a ∧
    toViaData (JSArg.null :: ts.map JSArg.str) = .ok ([], ts) := by
  constructor
  · rw [← toViaSingle_okness a]
    simp only [toViaData]
    rw [show toVia [a] = toViaSingle a from rfl, toStrings_mapStr ts]
    cases toViaSingle a with
    | error e => rfl
    | ok preds => rfl
  · simp only [toViaData]
    rw [show toVia [JSArg.null] = Except.ok [] from rfl, toStrings_mapStr ts]

/-- C10.  The filter installed for a type-membership filter accepts a value
with nil error exactly when its computed type tag is in the configured list,
and returns false together with a non-nil unknown-type error when it is
not. -/
theorem filterTypes_unmatched_errors (types : List String) (val : QuadValue) :
    (typeCheck val ∈ types → filterTypesFn types val = (true, none)) ∧
    (typeCheck val ∉ types →
      filterTypesFn types val = (false, some (.unknownType (typeCheck val)))) := by
  constructor <;> intro h <;> simp [filterTypesFn, h]

/-- Witness for C10: an integer passes the int-or-float filter with nil
error; a plain string fails it with the unknown-type error. -/
theorem filterTypes_unmatched_errors_witness :
    filterTypesFn ["int", "float"] (.int 3) = (true, none) ∧
    filterTypesFn ["int", "float"] (.str "ab") =
      (false, some (.unknownType "str")) :=
  ⟨(filterTypes_unmatched_errors ["int", "float"] (.int 3)).1 (by decide),
   (filterTypes_unmatched_errors ["int", "float"] (.str "ab")).2 (by decide)⟩

/-- C6.  Every builder combinator behaves as returning a brand-new
expression: the receiver's path is unchanged by the call, the derived
object's path is the receiver's sequence extended by exactly the applied
combinator, and extending a derived object further never alters the
original receiver or the intermediate expression. -/
theorem pathObject_combinators_persistent (p : pathObjectG)
    (vals vals2 : List QuadValue) (preds preds2 : List ViaItem)
    (hv : ViaItem) (rev follow : Bool) (via : MPath) (n : Int) :
    ((p.isGz vals).1.path = p.path ∧
      (p.isGz vals).2.path = ⟨p.path.stack ++ [.isC vals]⟩) ∧
    ((p.inGz preds).1.path = p.path ∧
      (p.inGz preds).2.path = ⟨p.path.stack ++ [.inC preds]⟩) ∧
    ((p.outGz preds).1.path = p.path ∧
      (p.outGz preds).2.path = ⟨p.path.stack ++ [.outC preds]⟩) ∧
    ((p.bothGz preds).1.path = p.path ∧
      (p.bothGz preds).2.path = ⟨p.path.stack ++ [.bothC preds]⟩) ∧
    ((p.hasGz rev hv vals2).1.path = p.path ∧
      (p.hasGz rev hv vals2).2.path = ⟨p.path.stack ++ [.hasC rev hv vals2]⟩) ∧
    ((p.intersectGz via follow).1.path = p.path ∧
      (p.intersectGz via follow).2.path =
        ⟨p.path.stack ++ [.andC via.stack follow]⟩) ∧
    ((p.unionGz via follow).1.path = p.path ∧
      (p.unionGz via follow).2.path =
        ⟨p.path.stack ++ [.orC via.stack follow]⟩) ∧
    ((p.exceptGz via follow).1.path = p.path ∧
      (p.exceptGz via follow).2.path =
        ⟨p.path.stack ++ [.exceptC via.stack follow]⟩) ∧
    (p.uniqueGz.1.path = p.path ∧
      p.uniqueGz.2.path = ⟨p.path.stack ++ [.uniqueC]⟩) ∧
    ((p.limitGz n).1.path = p.path ∧
      (p.limitGz n).2.path = ⟨p.path.stack ++ [.limitC n]⟩) ∧
    ((p.skipGz n).1.path = p.path ∧
      (p.skipGz n).2.path = ⟨p.path.stack ++ [.skipC n]⟩) ∧
    (p.filterGz.1.path = p.path ∧
      p.filterGz.2.path = ⟨p.path.stack ++ [.filtersC]⟩) ∧
    (((p.outGz preds).2.inGz preds2).1.path = ⟨p.path.stack ++ [.outC preds]⟩ ∧
      ((p.outGz preds).2.inGz preds2).2.path =
        ⟨p.path.stack ++ [.outC preds, .inC preds2]⟩ ∧
      (p.outGz preds).1.path = p.path) := by
  refine ⟨⟨rfl, rfl⟩, ⟨rfl, rfl⟩, ⟨rfl, rfl⟩, ⟨rfl, rfl⟩, ⟨rfl, rfl⟩,
    ⟨rfl, rfl⟩, ⟨rfl, rfl⟩, ⟨rfl, rfl⟩, ⟨rfl, rfl⟩, ⟨rfl, rfl⟩, ⟨rfl, rfl⟩,
    ⟨rfl, rfl⟩, rfl, ?_, rfl⟩
  show MPath.mk ((p.path.stack ++ [.outC preds]) ++ [.inC preds2]) = _
  rw [List.append_assoc]
  rfl

end Cayley
